import Mathlib

/-!
# Verification of the Red Specter ScriptMap core pipeline

A shallow embedding of src/redspecter_scriptmap.py: line extraction,
URL normalization (via a model of CPython urllib.parse.urlparse),
first-party determination, category classification and the pipeline
orchestrator, together with theorems settling the specification claims.

Scope of the embedding: character-level operations (lower-casing,
whitespace stripping, case-insensitive matching) are modelled for
ASCII text, which covers every pattern in the rule table and every
input exercised by the claims.  The urlparse model follows CPython's
urlsplit/urlparse for ASCII inputs: WHATWG control-character
stripping, scheme detection, netloc splitting with the mismatched
square-bracket ValueError, fragment/query splitting and the params
split of urlparse.  The NFKC netloc check (which can only fire on
non-ASCII netlocs) and the bracketed-host validation of Python 3.11+
(which only fires when both brackets are present) are outside the
model.
-/

/-- ASCII model of Python str.isspace: space, TAB, LF, CR, VT, FF,
FS, GS, RS, US, NEL (0x85) and NBSP (0xA0). -/
def isPySpace (c : Char) : Bool :=
  c = ' ' || c = '\t' || c = '\n' || c = '\r' || c.toNat = 11 || c.toNat = 12 ||
  (28 ≤ c.toNat && c.toNat ≤ 31) || c.toNat = 133 || c.toNat = 160

/-- Python str.strip() with no argument: drop whitespace from both ends. -/
def pyStrip (s : String) : String :=
  String.mk (((s.data.dropWhile isPySpace).reverse.dropWhile isPySpace).reverse)

/-- Python str.lstrip(chars): drop leading characters belonging to the set. -/
def pyLstripChars (s : String) (chars : List Char) : String :=
  String.mk (s.data.dropWhile (fun c => chars.contains c))

/-- Python str.rstrip(chars): drop trailing characters belonging to the set. -/
def pyRstripChars (s : String) (chars : List Char) : String :=
  String.mk ((s.data.reverse.dropWhile (fun c => chars.contains c)).reverse)

/-- ASCII lower-casing of one character (Python str.lower on ASCII). -/
def lowerChar (c : Char) : Char :=
  if 65 ≤ c.toNat && c.toNat ≤ 90 then Char.ofNat (c.toNat + 32) else c

/-- ASCII model of Python str.lower(). -/
def lowerStr (s : String) : String :=
  String.mk (s.data.map lowerChar)

/-- Containment of a contiguous run: the first list occurs inside the second. -/
def listIsInfix (sub : List Char) : List Char → Bool
  | [] => sub.isEmpty
  | c :: rest => List.isPrefixOf sub (c :: rest) || listIsInfix sub rest

/-- Python substring containment: sub in s. -/
def strContains (s sub : String) : Bool :=
  listIsInfix sub.data s.data

/-- Python str.startswith for a single candidate. -/
def strStartsWith (s p : String) : Bool :=
  List.isPrefixOf p.data s.data

/-- Python str.endswith for a single candidate. -/
def strEndsWith (s p : String) : Bool :=
  List.isSuffixOf p.data s.data

/-- The double-quote character, written numerically. -/
def dquoteChar : Char := Char.ofNat 34

/-- The single-quote character, written numerically. -/
def squoteChar : Char := Char.ofNat 39

/-- Membership in the regex character class of the two quote kinds. -/
def isQuote (c : Char) : Bool :=
  c = dquoteChar || c = squoteChar

/-- One anchored attempt of the regex src=["two-quote class]([^ two quotes]+)[class]
(SCRIPT_SRC_RE, re.IGNORECASE) at the head of the character list: literal
src= case-insensitively, an opening quote, a non-empty maximal run of
non-quote characters, then a closing quote; returns the captured run. -/
def srcMatchAt (l : List Char) : Option (List Char) :=
  match l with
  | s :: r :: c :: e :: q :: rest =>
    if lowerChar s = 's' && lowerChar r = 'r' && lowerChar c = 'c' &&
        e = '=' && isQuote q then
      let run := rest.takeWhile (fun ch => !(isQuote ch))
      let rem := rest.dropWhile (fun ch => !(isQuote ch))
      if run.isEmpty then none
      else
        match rem with
        | [] => none
        | _ :: _ => some run
    else none
  | _ => none

/-- Leftmost search of SCRIPT_SRC_RE (Python re.search): try each start
position from the left and return the first capture. -/
def srcSearchAux : List Char → Option (List Char)
  | [] => none
  | c :: rest =>
    match srcMatchAt (c :: rest) with
    | some r => some r
    | none => srcSearchAux rest

/-- re.search of SCRIPT_SRC_RE over a string, returning group(1). -/
def srcSearch (s : String) : Option String :=
  (srcSearchAux s.data).map String.mk

/-- extract_url_from_line (src/redspecter_scriptmap.py lines 116-132):
strip the line; empty yields nothing; a line containing "<script"
case-insensitively is searched for a src attribute whose stripped value is
returned when found (otherwise control falls through); a line starting with
http://, https:// or // is returned verbatim; anything else yields nothing. -/
def extract_url_from_line (line : String) : Option String :=
  let l := pyStrip line
  if l = "" then none
  else
    match (if strContains (lowerStr l) "<script" then srcSearch l else none) with
    | some g => some (pyStrip g)
    | none =>
      if strStartsWith l "http://" || strStartsWith l "https://" ||
          strStartsWith l "//" then some l
      else none

/-- WHATWG C0-control-or-space characters stripped from the left of a URL
by CPython urlsplit. -/
def whatwgC0OrSpace (c : Char) : Bool :=
  c.toNat ≤ 32

/-- The three byte values CPython urlsplit removes everywhere in the URL. -/
def isTabNlCr (c : Char) : Bool :=
  c = '\t' || c = '\r' || c = '\n'

/-- Split a list at the first occurrence of a character: the part before
(excluded) and the part after (excluded); none when the character is absent. -/
def splitAtFirst (t : Char) : List Char → Option (List Char × List Char)
  | [] => none
  | c :: rest =>
    if c = t then some ([], rest)
    else (splitAtFirst t rest).map (fun p => (c :: p.1, p.2))

/-- Characters allowed in a URL scheme (CPython scheme_chars). -/
def schemeChar (c : Char) : Bool :=
  c.isAlpha || c.isDigit || c = '+' || c = '-' || c = '.'

/-- CPython urlsplit scheme detection: a colon at a positive index whose
left part starts with an ASCII letter and is made of scheme characters only
produces a lower-cased scheme; otherwise the URL is left intact. -/
def splitScheme (l : List Char) : List Char × List Char :=
  match splitAtFirst ':' l with
  | none => ([], l)
  | some (before, after) =>
    match before with
    | [] => ([], l)
    | c :: cs =>
      if c.isAlpha && (c :: cs).all schemeChar then ((c :: cs).map lowerChar, after)
      else ([], l)

/-- Delimiters ending the netloc portion (CPython _splitnetloc). -/
def netlocDelim (c : Char) : Bool :=
  c = '/' || c = '?' || c = '#'

/-- Split off fragment (at the first hash) and then query (at the first
question mark of what precedes the fragment), as urlsplit does; returns
(path, query, fragment). -/
def splitFragQuery (l : List Char) : List Char × List Char × List Char :=
  match splitAtFirst '#' l with
  | none =>
    (match splitAtFirst '?' l with
     | none => (l, [], [])
     | some pq => (pq.1, pq.2, []))
  | some (l1, frag) =>
    match splitAtFirst '?' l1 with
    | none => (l1, [], frag)
    | some pq => (pq.1, pq.2, frag)

/-- Result of the urlsplit model: scheme, netloc, path, query, fragment. -/
structure SplitResult where
  scheme : List Char
  netloc : List Char
  path : List Char
  query : List Char
  fragment : List Char
deriving DecidableEq

/-- Model of CPython urllib.parse.urlsplit for ASCII input: strip leading
C0-control-or-space, remove tab/CR/LF, detect the scheme, split the netloc
when the remainder starts with two slashes (raising ValueError when the
netloc has a square bracket of one kind only), then split off fragment and
query. -/
def pyUrlsplit (url : String) : Except String SplitResult :=
  let u1 := (url.data.dropWhile whatwgC0OrSpace).filter (fun c => !(isTabNlCr c))
  let su := splitScheme u1
  if List.isPrefixOf ['/', '/'] su.2 then
    let netloc := (su.2.drop 2).takeWhile (fun c => !(netlocDelim c))
    let after := (su.2.drop 2).dropWhile (fun c => !(netlocDelim c))
    if (netloc.contains '[' && !(netloc.contains ']')) ||
        (netloc.contains ']' && !(netloc.contains '[')) then
      Except.error "Invalid IPv6 URL"
    else
      let pqf := splitFragQuery after
      Except.ok ⟨su.1, netloc, pqf.1, pqf.2.1, pqf.2.2⟩
  else
    let pqf := splitFragQuery su.2
    Except.ok ⟨su.1, [], pqf.1, pqf.2.1, pqf.2.2⟩

/-- Schemes for which urlparse splits params off the path (CPython
uses_params). -/
def usesParams : List String :=
  ["", "ftp", "hdl", "prospero", "http", "imap", "https", "shttp", "rtsp",
   "rtspu", "sip", "sips", "mms", "sftp", "tel"]

/-- Index of the first occurrence of a character at or after a start index. -/
def findFrom (t : Char) (l : List Char) (start : Nat) : Option Nat :=
  match splitAtFirst t (l.drop start) with
  | none => none
  | some p => some (start + p.1.length)

/-- Index of the last occurrence of a character. -/
def rfindChar (t : Char) (l : List Char) : Option Nat :=
  match splitAtFirst t l.reverse with
  | none => none
  | some p => some (l.length - 1 - p.1.length)

/-- CPython _splitparams: split path and params at the first semicolon of
the last path segment (or of the whole string when it has no slash). -/
def splitparams (l : List Char) : List Char × List Char :=
  match rfindChar '/' l with
  | some k =>
    match findFrom ';' l k with
    | none => (l, [])
    | some i => (l.take i, l.drop (i + 1))
  | none =>
    match findFrom ';' l 0 with
    | none => (l.take (l.length - 1), l)
    | some i => (l.take i, l.drop (i + 1))

/-- Model of CPython urllib.parse.urlparse: urlsplit, then params split of
the path for schemes in usesParams. -/
def pyUrlparse (url : String) : Except String SplitResult :=
  match pyUrlsplit url with
  | Except.error e => Except.error e
  | Except.ok r =>
    if r.path.contains ';' && usesParams.contains (String.mk r.scheme) then
      Except.ok ⟨r.scheme, r.netloc, (splitparams r.path).1, r.query, r.fragment⟩
    else Except.ok r

/-- normalize_url (src/redspecter_scriptmap.py lines 135-144): prepend
https: to protocol-relative URLs, parse with urlparse, lower-case scheme
and netloc and default an empty path to a slash.  The Python body has no
exception handling, so a ValueError raised by urlparse propagates, which
the Except models. -/
def normalize_url (url : String) : Except String (String × String × String) :=
  let url := if strStartsWith url "//" then "https:" ++ url else url
  match pyUrlparse url with
  | Except.error e => Except.error e
  | Except.ok r =>
    Except.ok (String.mk (r.scheme.map lowerChar),
               String.mk (r.netloc.map lowerChar),
               if r.path.isEmpty then "/" else String.mk r.path)

deriving instance DecidableEq for Except

/-- is_first_party (src/redspecter_scriptmap.py lines 147-152): false when
host or primary domain is empty; otherwise lower-case both, strip leading
dots from the primary domain, and test equality or dotted-suffix match. -/
def is_first_party (host primary_domain : String) : Bool :=
  if host = "" || primary_domain = "" then false
  else
    let pd := pyLstripChars (lowerStr primary_domain) ['.']
    let h := lowerStr host
    h = pd || strEndsWith h ("." ++ pd)

/-- CATEGORY_RULES (src/redspecter_scriptmap.py lines 52-113), as the
ordered sequence of (category, ordered pattern list) pairs in declaration
order of the Python dict. -/
def CATEGORY_RULES : List (String × List String) :=
  [("analytics",
    ["google-analytics.com", "analytics.google.com", "googletagmanager.com",
     "gtag/js", "segment.io", "mixpanel.com", "matomo", "plausible.io",
     "snowplow"]),
   ("ads",
    ["doubleclick.net", "googlesyndication.com", "adservice.google.com",
     "adsystem.com", "adnxs.com", "taboola", "outbrain"]),
   ("cdn/library",
    ["cdn.", "cdnjs", "jsdelivr", "cloudflare.com", "unpkg.com", "static.",
     "ajax.googleapis.com", "code.jquery.com", "bootstrap"]),
   ("payment",
    ["js.stripe.com", "stripe.com", "paypalobjects.com",
     "braintreepayments.com", "checkout."]),
   ("social",
    ["connect.facebook.net", "facebook.com", "platform.twitter.com",
     "twitter.com/widgets", "linkedin.com", "snap."]),
   ("monitoring",
    ["sentry.io", "bugsnag", "datadoghq.com", "newrelic", "rollbar",
     "logrocket"]),
   ("maps",
    ["maps.googleapis.com", "mapbox.com", "leaflet", "openstreetmap"])]

/-- The inner loop of classify_script: first pattern of the list whose
lower-cased text occurs in the combined string, paired with its category. -/
def findPat (cat : String) (combined : String) : List String → Option (String × String)
  | [] => none
  | p :: ps =>
    if strContains combined (lowerStr p) then some (cat, p)
    else findPat cat combined ps

/-- The outer loop of classify_script over the rule table. -/
def findRule (combined : String) : List (String × List String) → Option (String × String)
  | [] => none
  | (cat, pats) :: rest =>
    match findPat cat combined pats with
    | some r => some r
    | none => findRule combined rest

/-- The note attached by the widget heuristic. -/
def widgetNote : String := "Widget-style script (embedded component)"

/-- The note attached by the tracker/track heuristic. -/
def trackNote : String := "Tracking-related identifier in URL"

/-- The note attached by the bundle/vendor heuristic; the dash is the
mojibake character sequence present verbatim in the source. -/
def bundleNote : String := "Large JS bundle â€“ may include multiple libraries"

/-- classify_script (src/redspecter_scriptmap.py lines 155-178): lower-case
host and path, concatenate, return on the first matching rule pattern with
empty notes, and otherwise fall back to the generic category with the
heuristic notes accumulated in widget, track, bundle order. -/
def classify_script (host path : String) : String × String × List String :=
  let host := lowerStr host
  let path := lowerStr path
  let combined := host ++ path
  match findRule combined CATEGORY_RULES with
  | some (cat, pattern) => (cat, pattern, [])
  | none =>
    let notes : List String := []
    let notes := if strContains combined "widget" then notes ++ [widgetNote] else notes
    let notes := if strContains combined "tracker" || strContains combined "track" then
        notes ++ [trackNote] else notes
    let notes := if strContains combined "bundle" || strContains combined "vendor" then
        notes ++ [bundleNote] else notes
    ("generic", "", notes)

/-- ScriptEntry (src/redspecter_scriptmap.py lines 36-49). -/
structure ScriptEntry where
  raw : String
  url : String
  scheme : String
  host : String
  path : String
  category : String
  subcategory : String
  first_party : Bool
  notes : List String
deriving DecidableEq

/-- The skip test of the process_scripts loop (src/redspecter_scriptmap.py
line 195): blank after stripping, or starting with one of the three comment
markers. -/
def skipAsComment (raw : String) : Bool :=
  raw = "" || strStartsWith raw "#" || strStartsWith raw "//" ||
    strStartsWith raw "<!--"

/-- One iteration of the process_scripts loop (src/redspecter_scriptmap.py
lines 193-220) on a single line: ok none encodes the continue branches,
error encodes a ValueError escaping from normalize_url, and ok some is an
appended record. -/
def processLine (primary_domain line : String) : Except String (Option ScriptEntry) :=
  let raw := pyStrip line
  if skipAsComment raw then Except.ok none
  else
    match extract_url_from_line raw with
    | none => Except.ok none
    | some url =>
      if url = "" then Except.ok none
      else
        match normalize_url url with
        | Except.error e => Except.error e
        | Except.ok (scheme, host, path) =>
          let c := classify_script host path
          let fp := is_first_party host primary_domain
          let notes := if host = "" then c.2.2 ++ ["No host component detected"] else c.2.2
          Except.ok (some ⟨raw, url, scheme, host, path, c.1, c.2.1, fp, notes⟩)

/-- process_scripts (src/redspecter_scriptmap.py lines 187-222) over an
in-memory list of input lines (read_input_lines merely streams the file
into such a list), accumulating the records in input order. -/
def process_scripts (lines : List String) (primary_domain : String) :
    Except String (List ScriptEntry) :=
  match lines with
  | [] => Except.ok []
  | l :: ls =>
    match processLine primary_domain l with
    | Except.error e => Except.error e
    | Except.ok none => process_scripts ls primary_domain
    | Except.ok (some entry) => (process_scripts ls primary_domain).map (entry :: ·)

/-- A line survives the pipeline's skip tests and yields a usable URL:
non-blank, not a comment, and extraction produces a non-empty URL (the
Python guard if not url treats None and the empty string alike). -/
def keepLine (line : String) : Bool :=
  let raw := pyStrip line
  if skipAsComment raw then false
  else
    match extract_url_from_line raw with
    | none => false
    | some url => !(url = "")

/-- The output base-name computation of main (src/redspecter_scriptmap.py
line 345): Python rstrip with the three-character set of ".md". -/
def output_base (p : String) : String :=
  pyRstripChars p ['.', 'm', 'd']

/-- Modelled from the spec: the intended base-name computation named by the
design notes, stripping one literal trailing ".md" suffix when present. -/
def intended_output_base (p : String) : String :=
  if strEndsWith p ".md" then String.mk (p.data.take (p.data.length - 3)) else p

/-- The record the pipeline builds for the Google Analytics line of the
end-to-end example, used to instantiate the record invariants. -/
def gaEntry : ScriptEntry :=
  ⟨"https://www.google-analytics.com/ga.js", "https://www.google-analytics.com/ga.js",
   "https", "www.google-analytics.com", "/ga.js", "analytics",
   "google-analytics.com", false, []⟩

/-- The record the pipeline builds for a hostless URL line: inventoried
with the no-host note rather than discarded. -/
def hostlessEntry : ScriptEntry :=
  ⟨"https:///x.js", "https:///x.js", "https", "", "/x.js", "generic", "",
   false, ["No host component detected"]⟩

/-- The record the pipeline builds for each copy of a duplicated input
line, used to instantiate the no-deduplication property. -/
def dupEntry : ScriptEntry :=
  ⟨"https://dup.other.net/a.js", "https://dup.other.net/a.js", "https",
   "dup.other.net", "/a.js", "generic", "", false, []⟩

/-- The flattening of the rule table into (category, pattern) pairs in
table-declaration order: all patterns of the first category, then all
patterns of the second, and so on. -/
def pairsOf : List (String × List String) → List (String × String)
  | [] => []
  | (c, ps) :: rest => ps.map (fun p => (c, p)) ++ pairsOf rest

/-- The heuristic notes of the generic fallback, as a single expression:
the widget, tracker/track and bundle/vendor notes in that order, each
present exactly when its substrings occur in the combined string. -/
def heuristicNotes (combined : String) : List String :=
  (if strContains combined "widget" then [widgetNote] else []) ++
  (if strContains combined "tracker" || strContains combined "track" then
    [trackNote] else []) ++
  (if strContains combined "bundle" || strContains combined "vendor" then
    [bundleNote] else [])

theorem findPat_eq_find? (cat combined : String) (ps : List String) :
    findPat cat combined ps =
      (ps.map (fun p => (cat, p))).find?
        (fun cp => strContains combined (lowerStr cp.2)) := by
  induction ps with
  | nil => rfl
  | cons p ps ih =>
    simp only [findPat, List.map_cons, List.find?_cons]
    cases h : strContains combined (lowerStr p) <;> simp [h, ih]

theorem findRule_eq_find? (combined : String) (rules : List (String × List String)) :
    findRule combined rules =
      (pairsOf rules).find? (fun cp => strContains combined (lowerStr cp.2)) := by
  induction rules with
  | nil => rfl
  | cons r rest ih =>
    obtain ⟨cat, ps⟩ := r
    simp only [findRule, pairsOf, List.find?_append, findPat_eq_find?, ih]
    cases h : (ps.map (fun p => (cat, p))).find?
        (fun cp => strContains combined (lowerStr cp.2)) <;> simp [h]

theorem classify_script_eq_find (host path : String) :
    classify_script host path =
      match (pairsOf CATEGORY_RULES).find?
          (fun cp => strContains (lowerStr host ++ lowerStr path) (lowerStr cp.2)) with
      | some (cat, pattern) => (cat, pattern, [])
      | none => ("generic", "", heuristicNotes (lowerStr host ++ lowerStr path)) := by
  simp only [classify_script, findRule_eq_find?]
  cases h : (pairsOf CATEGORY_RULES).find?
      (fun cp => strContains (lowerStr host ++ lowerStr path) (lowerStr cp.2)) with
  | some cp => obtain ⟨c, p⟩ := cp; simp [h]
  | none =>
    simp only [h, heuristicNotes]
    cases hw : strContains (lowerStr host ++ lowerStr path) "widget" <;>
      cases ht : (strContains (lowerStr host ++ lowerStr path) "tracker" ||
          strContains (lowerStr host ++ lowerStr path) "track") <;>
        cases hb : (strContains (lowerStr host ++ lowerStr path) "bundle" ||
            strContains (lowerStr host ++ lowerStr path) "vendor") <;>
          simp [hw, ht, hb]

/-- C1: classify_script lower-cases host and path and concatenates them;
it returns the category and pattern of the first (category, pattern) pair
in table-declaration order whose pattern occurs as a substring of the
combined string, with an empty notes list; when no pattern matches it
returns the generic category with empty subcategory and the heuristic
notes, which therefore appear only in the no-match case and never alter
the category. -/
theorem classify_script_first_match_spec (host path : String) :
    classify_script host path =
      match (pairsOf CATEGORY_RULES).find?
          (fun cp => strContains (lowerStr host ++ lowerStr path) (lowerStr cp.2)) with
      | some (cat, pattern) => (cat, pattern, [])
      | none => ("generic", "", heuristicNotes (lowerStr host ++ lowerStr path)) :=
  classify_script_eq_find host path

theorem strEndsWith_iff (s p : String) :
    strEndsWith s p = true ↔ ∃ pre, s.data = pre ++ p.data := by
  unfold strEndsWith
  rw [List.isSuffixOf_iff_suffix]
  constructor
  · rintro ⟨t, ht⟩
    exact ⟨t, ht.symm⟩
  · rintro ⟨t, ht⟩
    exact ⟨t, ht.symm⟩

/-- C2: is_first_party is false when either argument is empty, and
otherwise holds exactly when the lower-cased host equals the lower-cased,
leading-dot-stripped primary domain or ends with a dot followed by it;
the four examples of the specification behave as stated. -/
theorem is_first_party_spec :
    (∀ host pd : String,
      is_first_party host pd = true ↔
        host ≠ "" ∧ pd ≠ "" ∧
          (lowerStr host = pyLstripChars (lowerStr pd) ['.'] ∨
           ∃ pre, (lowerStr host).data =
             pre ++ ("." ++ pyLstripChars (lowerStr pd) ['.']).data)) ∧
    is_first_party "a.example.com" "example.com" = true ∧
    is_first_party "example.com" "example.com" = true ∧
    is_first_party "notexample.com" "example.com" = false ∧
    is_first_party "example.com.evil.com" "example.com" = false := by
  refine ⟨?_, by decide, by decide, by decide, by decide⟩
  intro host pd
  unfold is_first_party
  by_cases h1 : host = ""
  · simp [h1]
  · by_cases h2 : pd = ""
    · simp [h2]
    · simp [h1, h2, strEndsWith_iff]

/-- C3: on the four specification input lines with primary domain
example.com, the pipeline produces exactly two records in input order, an
analytics third-party record for the Google Analytics URL and a
cdn/library third-party record extracted from the script tag, while the
comment line and the non-URL line produce none. -/
theorem process_scripts_end_to_end :
    process_scripts
      ["https://www.google-analytics.com/ga.js", "# comment",
       "<script src=\"https://cdn.jsdelivr.net/lib.js\"></script>", "not a url"]
      "example.com" =
    Except.ok
      [⟨"https://www.google-analytics.com/ga.js", "https://www.google-analytics.com/ga.js",
        "https", "www.google-analytics.com", "/ga.js", "analytics",
        "google-analytics.com", false, []⟩,
       ⟨"<script src=\"https://cdn.jsdelivr.net/lib.js\"></script>",
        "https://cdn.jsdelivr.net/lib.js", "https", "cdn.jsdelivr.net", "/lib.js",
        "cdn/library", "cdn.", false, []⟩] := by
  decide

/-- C4 counterexample: classifying host unknownvendor.io with path /lib.js
does not return an empty notes list, because the heuristic substring
vendor occurs inside unknownvendor.io; the claim's expected triple is
refuted. -/
theorem classify_unknownvendor_counterexample :
    classify_script "unknownvendor.io" "/lib.js" ≠ ("generic", "", []) := by
  decide

/-- C4 amended: classifying host unknownvendor.io with path /lib.js
returns category generic and empty subcategory, with exactly one
heuristic note, the bundle/vendor note, since the substring vendor occurs
in the combined string. -/
theorem classify_unknownvendor_amended :
    classify_script "unknownvendor.io" "/lib.js" = ("generic", "", [bundleNote]) := by
  decide

/-- C9: the base-name computation applies Python rstrip with the
character set of ".md", so the prefix buildd is trimmed of both trailing
d characters, while removing a literal trailing ".md" suffix would leave
buildd unchanged; the two computations differ on this prefix. -/
theorem output_base_rstrip_set :
    output_base "buildd" = "buil" ∧
    intended_output_base "buildd" = "buildd" ∧
    output_base "buildd" ≠ intended_output_base "buildd" := by
  decide

/-- C6: any line whose stripped form starts with two slashes is skipped by
the orchestrator as a comment, producing no record, although the
extractor alone, on such a line without a script tag, returns the
stripped line verbatim as a URL candidate. -/
theorem slashslash_lines_skipped (line pd : String)
    (h : strStartsWith (pyStrip line) "//" = true) :
    processLine pd line = Except.ok none ∧
    (strContains (lowerStr (pyStrip line)) "<script" = false →
      extract_url_from_line line = some (pyStrip line)) := by
  constructor
  · have hskip : skipAsComment (pyStrip line) = true := by
      simp [skipAsComment, h]
    simp [processLine, hskip]
  · intro hns
    have hne : ¬ (pyStrip line = "") := by
      intro he
      rw [he] at h
      exact absurd h (by decide)
    simp [extract_url_from_line, hne, hns, h]

theorem slashslash_lines_skipped_witness :
    processLine "example.com" "//cdn.example.com/lib.js" = Except.ok none ∧
    extract_url_from_line "//cdn.example.com/lib.js" =
      some (pyStrip "//cdn.example.com/lib.js") := by
  have h := slashslash_lines_skipped "//cdn.example.com/lib.js" "example.com" (by decide)
  exact ⟨h.1, h.2 (by decide)⟩

/-- C7 counterexample: the line http://x.com/(script tag opener) contains
the substring of a script tag and has no src attribute match, yet
extraction does not yield nothing: the code falls through to the URL
prefix test and returns the whole line. -/
theorem extract_script_no_src_counterexample :
    strContains (lowerStr (pyStrip "http://x.com/<script>")) "<script" = true ∧
    srcSearch (pyStrip "http://x.com/<script>") = none ∧
    extract_url_from_line "http://x.com/<script>" = some "http://x.com/<script>" := by
  decide

/-- C7 amended: on a line whose trimmed form contains the script-tag
substring case-insensitively but has no src attribute match, extraction
falls through to the prefix test: it yields the trimmed line when that
line starts with http://, https:// or //, and nothing otherwise. -/
theorem extract_script_no_src_fallthrough (line : String)
    (h1 : strContains (lowerStr (pyStrip line)) "<script" = true)
    (h2 : srcSearch (pyStrip line) = none) :
    extract_url_from_line line =
      (if strStartsWith (pyStrip line) "http://" ||
          strStartsWith (pyStrip line) "https://" ||
          strStartsWith (pyStrip line) "//" then some (pyStrip line) else none) := by
  have hne : ¬ (pyStrip line = "") := by
    intro he
    rw [he] at h1
    exact absurd h1 (by decide)
  simp [extract_url_from_line, hne, h1, h2]

theorem extract_script_no_src_fallthrough_witness :
    extract_url_from_line "<script>inline code</script>" =
      (if strStartsWith (pyStrip "<script>inline code</script>") "http://" ||
          strStartsWith (pyStrip "<script>inline code</script>") "https://" ||
          strStartsWith (pyStrip "<script>inline code</script>") "//" then
        some (pyStrip "<script>inline code</script>") else none) :=
  extract_script_no_src_fallthrough "<script>inline code</script>" (by decide) (by decide)

theorem contains_eq_false_of_not_mem {l : List Char} {a : Char} (h : a ∉ l) :
    l.contains a = false := by
  cases hc : l.contains a
  · rfl
  · exact absurd (List.mem_of_elem_eq_true hc) h

theorem splitAtFirst_after_sublist (t : Char) :
    ∀ (l b a : List Char), splitAtFirst t l = some (b, a) → a.Sublist l := by
  intro l
  induction l with
  | nil =>
    intro b a h
    simp [splitAtFirst] at h
  | cons x rest ih =>
    intro b a h
    simp only [splitAtFirst] at h
    split at h
    · simp only [Option.some.injEq, Prod.mk.injEq] at h
      obtain ⟨hb, ha⟩ := h
      subst ha
      exact (List.Sublist.refl rest).cons x
    · cases hsp : splitAtFirst t rest with
      | none =>
        rw [hsp] at h
        simp at h
      | some p =>
        rw [hsp] at h
        obtain ⟨b', a'⟩ := p
        simp only [Option.map_some', Option.some.injEq, Prod.mk.injEq] at h
        obtain ⟨hb, ha⟩ := h
        subst ha
        exact (ih b' a' hsp).cons x

theorem splitScheme_snd_sublist (l : List Char) : (splitScheme l).2.Sublist l := by
  cases hsp : splitAtFirst ':' l with
  | none => simp only [splitScheme, hsp]; exact List.Sublist.refl l
  | some p =>
    obtain ⟨before, after⟩ := p
    cases before with
    | nil => simp only [splitScheme, hsp]; exact List.Sublist.refl l
    | cons c cs =>
      simp only [splitScheme, hsp]
      split
      · exact splitAtFirst_after_sublist ':' l (c :: cs) after hsp
      · exact List.Sublist.refl l

theorem pyUrlsplit_ok_of_no_brackets (url : String)
    (h : ∀ c ∈ url.data, c ≠ '[' ∧ c ≠ ']') :
    ∃ r, pyUrlsplit url = Except.ok r := by
  have hsub : (((splitScheme ((url.data.dropWhile whatwgC0OrSpace).filter
      (fun c => !(isTabNlCr c)))).2.drop 2).takeWhile
        (fun c => !(netlocDelim c))).Sublist url.data := by
    have s1 := List.dropWhile_sublist (l := url.data) whatwgC0OrSpace
    have s2 := List.filter_sublist (p := fun c => !(isTabNlCr c))
      (url.data.dropWhile whatwgC0OrSpace)
    have s3 := splitScheme_snd_sublist
      ((url.data.dropWhile whatwgC0OrSpace).filter (fun c => !(isTabNlCr c)))
    have s4 := List.drop_sublist 2 (splitScheme
      ((url.data.dropWhile whatwgC0OrSpace).filter (fun c => !(isTabNlCr c)))).2
    have s5 := List.takeWhile_sublist (l := (splitScheme
      ((url.data.dropWhile whatwgC0OrSpace).filter
        (fun c => !(isTabNlCr c)))).2.drop 2) (fun c => !(netlocDelim c))
    exact s5.trans ((s4.trans s3).trans (s2.trans s1))
  have hn1 : (((splitScheme ((url.data.dropWhile whatwgC0OrSpace).filter
      (fun c => !(isTabNlCr c)))).2.drop 2).takeWhile
        (fun c => !(netlocDelim c))).contains '[' = false :=
    contains_eq_false_of_not_mem (fun hm => (h _ (hsub.subset hm)).1 rfl)
  have hn2 : (((splitScheme ((url.data.dropWhile whatwgC0OrSpace).filter
      (fun c => !(isTabNlCr c)))).2.drop 2).takeWhile
        (fun c => !(netlocDelim c))).contains ']' = false :=
    contains_eq_false_of_not_mem (fun hm => (h _ (hsub.subset hm)).2 rfl)
  simp only [pyUrlsplit]
  split
  · rw [hn1, hn2]
    exact ⟨_, rfl⟩
  · exact ⟨_, rfl⟩

theorem pyUrlparse_ok_of_no_brackets (url : String)
    (h : ∀ c ∈ url.data, c ≠ '[' ∧ c ≠ ']') :
    ∃ r, pyUrlparse url = Except.ok r := by
  obtain ⟨r, hr⟩ := pyUrlsplit_ok_of_no_brackets url h
  simp only [pyUrlparse, hr]
  split
  · exact ⟨_, rfl⟩
  · exact ⟨_, rfl⟩

/-- C5 counterexample: the URL normalizer is not total: on the input
https:// followed by an opening square bracket, the modelled urlparse
raises ValueError (Invalid IPv6 URL) which normalize_url propagates, and
a pipeline containing that line followed by a well-formed line aborts
with the error instead of processing the subsequent line. -/
theorem normalize_url_raises_counterexample :
    normalize_url "https://[" = Except.error "Invalid IPv6 URL" ∧
    process_scripts ["https://[", "https://www.google-analytics.com/ga.js"]
      "example.com" = Except.error "Invalid IPv6 URL" := by
  decide

/-- C5 amended: normalize_url never fails on inputs containing no square
bracket: for every such URL string it returns a parsed triple; only a URL
whose authority component has a mismatched square bracket makes urlparse
raise, and that exception propagates out of the pipeline. -/
theorem normalize_url_ok_of_no_brackets (url : String)
    (h : ∀ c ∈ url.data, c ≠ '[' ∧ c ≠ ']') :
    ∃ v, normalize_url url = Except.ok v := by
  have h2 : ∀ c ∈ (if strStartsWith url "//" then "https:" ++ url else url).data,
      c ≠ '[' ∧ c ≠ ']' := by
    split
    · intro c hc
      rw [String.data_append] at hc
      rcases List.mem_append.mp hc with h1 | h1
      · exact (by decide : ∀ c ∈ ("https:" : String).data, c ≠ '[' ∧ c ≠ ']') c h1
      · exact h c h1
    · exact h
  obtain ⟨r, hr⟩ := pyUrlparse_ok_of_no_brackets
    (if strStartsWith url "//" then "https:" ++ url else url) h2
  simp only [normalize_url, hr]
  exact ⟨_, rfl⟩

theorem normalize_url_ok_of_no_brackets_witness :
    ∃ v, normalize_url "https://ok.example.com/a.js" = Except.ok v :=
  normalize_url_ok_of_no_brackets "https://ok.example.com/a.js" (by decide)

theorem classify_category_mem (host path : String) :
    (classify_script host path).1 ∈ ["analytics", "ads", "cdn/library", "payment",
      "social", "monitoring", "maps", "generic"] := by
  rw [classify_script_eq_find]
  cases h : (pairsOf CATEGORY_RULES).find?
      (fun cp => strContains (lowerStr host ++ lowerStr path) (lowerStr cp.2)) with
  | some cp =>
    obtain ⟨c, p⟩ := cp
    have hmem := List.mem_of_find?_eq_some h
    have hcat := (by decide : ∀ cp ∈ pairsOf CATEGORY_RULES,
      cp.1 ∈ ["analytics", "ads", "cdn/library", "payment", "social",
        "monitoring", "maps", "generic"]) _ hmem
    simpa using hcat
  | none => simp

theorem is_first_party_empty_host (pd : String) : is_first_party "" pd = false := by
  simp [is_first_party]

theorem processLine_some_inv (pd line : String) (e : ScriptEntry)
    (h : processLine pd line = Except.ok (some e)) :
    e.category ∈ ["analytics", "ads", "cdn/library", "payment", "social",
      "monitoring", "maps", "generic"] ∧
    (e.host = "" → e.first_party = false ∧
      ∃ pre, e.notes = pre ++ ["No host component detected"]) := by
  simp only [processLine] at h
  cases hskip : skipAsComment (pyStrip line) with
  | true => rw [hskip] at h; simp at h
  | false =>
    rw [hskip] at h
    simp only [Bool.false_eq_true, if_false] at h
    cases hex : extract_url_from_line (pyStrip line) with
    | none => rw [hex] at h; simp at h
    | some url =>
      simp only [hex] at h
      by_cases hu : url = ""
      · simp [hu] at h
      · rw [if_neg hu] at h
        cases hn : normalize_url url with
        | error err => rw [hn] at h; simp at h
        | ok v =>
          obtain ⟨scheme, host, path⟩ := v
          simp only [hn, Except.ok.injEq, Option.some.injEq] at h
          subst h
          refine ⟨classify_category_mem host path, ?_⟩
          intro hh
          replace hh : host = "" := hh
          constructor
          · show is_first_party host pd = false
            rw [hh]
            exact is_first_party_empty_host pd
          · show ∃ pre, (if host = "" then
                (classify_script host path).2.2 ++ ["No host component detected"]
              else (classify_script host path).2.2) =
                pre ++ ["No host component detected"]
            rw [if_pos hh]
            exact ⟨_, rfl⟩

/-- C8: every record an error-free pipeline run produces has a category
from the fixed eight-element set; a record with an empty host is never
first-party and carries the no-host note appended after any heuristic
notes; and, as the concrete conjunct shows, a hostless URL still yields a
record rather than being discarded. -/
theorem pipeline_record_invariants :
    (∀ (lines : List String) (pd : String) (entries : List ScriptEntry),
        process_scripts lines pd = Except.ok entries →
        ∀ e ∈ entries,
          e.category ∈ ["analytics", "ads", "cdn/library", "payment", "social",
            "monitoring", "maps", "generic"] ∧
          (e.host = "" → e.first_party = false ∧
            ∃ pre, e.notes = pre ++ ["No host component detected"])) ∧
    process_scripts ["https:///x.js"] "example.com" = Except.ok [hostlessEntry] := by
  constructor
  · intro lines
    induction lines with
    | nil =>
      intro pd entries h
      simp only [process_scripts, Except.ok.injEq] at h
      subst h
      intro e he
      simp at he
    | cons l ls ih =>
      intro pd entries h
      simp only [process_scripts] at h
      cases hpl : processLine pd l with
      | error err => rw [hpl] at h; simp at h
      | ok o =>
        rw [hpl] at h
        cases o with
        | none => exact ih pd entries h
        | some ent =>
          cases hrec : process_scripts ls pd with
          | error err => rw [hrec] at h; simp [Except.map] at h
          | ok es =>
            rw [hrec] at h
            simp only [Except.map, Except.ok.injEq] at h
            subst h
            intro e he
            rcases List.mem_cons.mp he with rfl | hmem
            · exact processLine_some_inv pd l e hpl
            · exact ih pd es hrec e hmem
  · decide

theorem pipeline_record_invariants_witness :
    gaEntry.category ∈ ["analytics", "ads", "cdn/library", "payment", "social",
      "monitoring", "maps", "generic"] ∧
    (gaEntry.host = "" → gaEntry.first_party = false ∧
      ∃ pre, gaEntry.notes = pre ++ ["No host component detected"]) :=
  pipeline_record_invariants.1 ["https://www.google-analytics.com/ga.js"]
    "example.com" [gaEntry] (by decide) gaEntry (List.mem_singleton.mpr rfl)

theorem processLine_none_keep (pd line : String)
    (h : processLine pd line = Except.ok none) : keepLine line = false := by
  simp only [processLine] at h
  simp only [keepLine]
  cases hskip : skipAsComment (pyStrip line) with
  | true => simp
  | false =>
    rw [hskip] at h
    simp only [Bool.false_eq_true, if_false] at h ⊢
    cases hex : extract_url_from_line (pyStrip line) with
    | none => simp
    | some url =>
      simp only [hex] at h ⊢
      by_cases hu : url = ""
      · simp [hu]
      · rw [if_neg hu] at h
        cases hn : normalize_url url with
        | error err => rw [hn] at h; simp at h
        | ok v =>
          obtain ⟨scheme, host, path⟩ := v
          simp only [hn] at h
          simp at h
  
theorem processLine_some_keep (pd line : String) (e : ScriptEntry)
    (h : processLine pd line = Except.ok (some e)) : keepLine line = true := by
  simp only [processLine] at h
  simp only [keepLine]
  cases hskip : skipAsComment (pyStrip line) with
  | true => rw [hskip] at h; simp at h
  | false =>
    rw [hskip] at h
    simp only [Bool.false_eq_true, if_false] at h ⊢
    cases hex : extract_url_from_line (pyStrip line) with
    | none => rw [hex] at h; simp at h
    | some url =>
      simp only [hex] at h ⊢
      by_cases hu : url = ""
      · simp [hu] at h
      · simp [hu]

/-- C10: the pipeline deduplicates nothing: an error-free run produces
exactly one record per line that survives the skip tests and yields a
non-empty extracted URL, so the output length equals the count of such
lines, and processing the same line twice appends the same record twice. -/
theorem process_scripts_no_dedup :
    (∀ (lines : List String) (pd : String) (entries : List ScriptEntry),
        process_scripts lines pd = Except.ok entries →
        entries.length = lines.countP keepLine) ∧
    (∀ (pd line : String) (e : ScriptEntry),
        processLine pd line = Except.ok (some e) →
        process_scripts [line, line] pd = Except.ok [e, e]) := by
  constructor
  · intro lines
    induction lines with
    | nil =>
      intro pd entries h
      simp only [process_scripts, Except.ok.injEq] at h
      subst h
      simp
    | cons l ls ih =>
      intro pd entries h
      simp only [process_scripts] at h
      cases hpl : processLine pd l with
      | error err => rw [hpl] at h; simp at h
      | ok o =>
        rw [hpl] at h
        cases o with
        | none =>
          have hk := processLine_none_keep pd l hpl
          rw [List.countP_cons_of_neg _ _ (by simp [hk])]
          exact ih pd entries h
        | some ent =>
          cases hrec : process_scripts ls pd with
          | error err => rw [hrec] at h; simp [Except.map] at h
          | ok es =>
            rw [hrec] at h
            simp only [Except.map, Except.ok.injEq] at h
            subst h
            have hk := processLine_some_keep pd l ent hpl
            rw [List.countP_cons_of_pos _ _ hk]
            simp [ih pd es hrec]
  · intro pd line e h
    simp [process_scripts, h, Except.map]

theorem process_scripts_no_dedup_witness :
    process_scripts ["https://dup.other.net/a.js", "https://dup.other.net/a.js"]
      "example.com" = Except.ok [dupEntry, dupEntry] ∧
    (2 : Nat) = (["https://dup.other.net/a.js",
      "https://dup.other.net/a.js"].countP keepLine) := by
  have h2 := process_scripts_no_dedup.2 "example.com" "https://dup.other.net/a.js"
    dupEntry (by decide)
  have h1 := process_scripts_no_dedup.1
    ["https://dup.other.net/a.js", "https://dup.other.net/a.js"] "example.com"
    [dupEntry, dupEntry] h2
  exact ⟨h2, by simpa using h1⟩
